import Mathlib

/-
Shallow embedding of the farm_iot streaming-filter core.

Sources embedded here:
  * src/base/manage/__init__.py        (Worker, Manager, Report)
  * src/base/pipeline/time_series_filters.py
      (BatchStdevFilter, MovingAverageFilter, MovingMedianFilter,
       AccumulateFilter, BatchConsumptionFilter)
  * src/base/sensor/modbus.py          (ModbusRTUBasedSensor.read_and_process)

Modelling conventions:
  * Python float values are modelled as rationals (ℚ).  `statistics.stdev`
    takes a square root; it is modelled by `ratSqrt`, which is exact whenever
    the sample variance is a perfect rational square (all concrete inputs in
    this file are chosen so).
  * A pandas DataFrame is modelled as explicit column lists; a nullable cell
    is `Option ℚ` (`none` = NaN).
  * Python exceptions are modelled with `Except PyErr`.
  * `collections.deque(maxlen=n)` is a list with FIFO eviction on append.
  * `datetime` values are rationals whose floor is the day number and whose
    fractional part is the time of day, so `.time()` is `t - ⌊t⌋` and
    adding a `timedelta` is rational addition.
-/

inductive PyErr : Type
  | attributeError : PyErr
  | keyError : PyErr
  | valueError : PyErr
  | statisticsError : PyErr
  deriving DecidableEq, Repr

instance {ε α : Type} [DecidableEq ε] [DecidableEq α] :
    DecidableEq (Except ε α) := fun a b =>
  match a, b with
  | .error e1, .error e2 =>
      if h : e1 = e2 then .isTrue (by rw [h])
      else .isFalse (by intro hh; cases hh; exact h rfl)
  | .error _, .ok _ => .isFalse (by intro hh; cases hh)
  | .ok _, .error _ => .isFalse (by intro hh; cases hh)
  | .ok v1, .ok v2 =>
      if h : v1 = v2 then .isTrue (by rw [h])
      else .isFalse (by intro hh; cases hh; exact h rfl)

/-! ## Basic Python/pandas helpers -/

/-- Python list slice `l[-n:]` (also pandas `iloc[-n:, :]`): the last `n`
elements, except that `n = 0` yields the whole list (Python `l[-0:] = l[0:]`). -/
def negSlice {α : Type} (n : Nat) (l : List α) : List α :=
  if n = 0 then l else l.drop (l.length - n)

/-- Model of `collections.deque(maxlen)` append: push at the right, evict from the
left when over capacity. -/
def dequeAppend {α : Type} (maxlen : Nat) (d : List α) (x : α) : List α :=
  let d2 := d ++ [x]
  if maxlen < d2.length then d2.drop (d2.length - maxlen) else d2

/-- Python `min` of a list: raises `ValueError` on an empty sequence. -/
def pyMinE : List ℚ → Except PyErr ℚ
  | [] => .error .valueError
  | x :: xs => .ok (xs.foldl min x)

/-- Python `max` of a list: raises `ValueError` on an empty sequence. -/
def pyMaxE : List ℚ → Except PyErr ℚ
  | [] => .error .valueError
  | x :: xs => .ok (xs.foldl max x)

/-- Model of `statistics.mean`: sum divided by length (call sites guard non-empty). -/
def pyMean (l : List ℚ) : ℚ := l.sum / (l.length : ℚ)

/-- Model of `statistics.median`: middle of the sorted list, averaging the two middle
elements for even length (call sites guard non-empty). -/
def pyMedian (l : List ℚ) : ℚ :=
  let s := l.insertionSort (· ≤ ·)
  if s.length % 2 = 1 then s.getD (s.length / 2) 0
  else (s.getD (s.length / 2 - 1) 0 + s.getD (s.length / 2) 0) / 2

/-- Model of `statistics.median` where the input may be empty: median raises
`StatisticsError` on no data. -/
def pyMedianE (l : List ℚ) : Except PyErr ℚ :=
  match l with
  | [] => .error .statisticsError
  | _ => .ok (pyMedian l)

/-- Rational model of the square root used inside `statistics.stdev`: exact
whenever the argument is the square of a rational (numerator and denominator
of the reduced fraction are both perfect squares). -/
def ratSqrt (q : ℚ) : ℚ := (Nat.sqrt q.num.toNat : ℚ) / (Nat.sqrt q.den : ℚ)

/-- Sample variance `Σ (x - mean)² / (len - 1)` over the given values. -/
def sampleVar (l : List ℚ) : ℚ :=
  ((l.map (fun x => (x - pyMean l) ^ 2)).sum) / ((l.length : ℚ) - 1)

/-- Model of `statistics.stdev`: square root of the sample variance. -/
def stdevQ (l : List ℚ) : ℚ := ratSqrt (sampleVar l)

/-! ## Worker / Manager reporting (src/base/manage/__init__.py)

A `Manager` is identified by an id; a call of `manager.handle(report)`
is recorded as the pair `(manager id, report)`.  `Report` payloads are
opaque and modelled by naturals. -/

structure Report where
  sign : Nat
  content : Nat
  deriving DecidableEq, Repr

structure Worker where
  manager : Option Nat
  deriving DecidableEq, Repr

/-- Model of `Worker.__init__`: `self.__manager = None`. -/
def Worker.init : Worker := ⟨none⟩

/-- Model of `Worker.set_manager` (lines 108-116): `if manager is None: return`,
otherwise `self.__manager = manager`. -/
def Worker.set_manager (w : Worker) (m : Option Nat) : Worker :=
  match m with
  | none => w
  | some mg => { w with manager := some mg }

/-- Model of `Worker.notify_manager` (lines 118-123): `await self.__manager.handle(report)`.
When `self.__manager` is `None`, attribute access on `None` raises
`AttributeError`; otherwise exactly one `handle` call is made on the attached
manager.  The result lists the `handle` calls performed. -/
def Worker.notify_manager (w : Worker) (r : Report) :
    Except PyErr (List (Nat × Report)) :=
  match w.manager with
  | none => .error .attributeError
  | some mg => .ok [(mg, r)]

/-! ## AccumulateFilter (src/base/pipeline/time_series_filters.py 393-446)

Rows are opaque (`α`); `__old` is the pending buffer, initially an empty
DataFrame. -/

structure AccumulateFilter (α : Type) where
  MAX_LENGTH : Nat
  old : List α

/-- Model of `AccumulateFilter.__init__`: `self.__old = DataFrame()`. -/
def AccumulateFilter.init (α : Type) (length : Nat) : AccumulateFilter α :=
  ⟨length, []⟩

/-- Model of `AccumulateFilter.process` (lines 432-446), returning the new filter
state and the returned batch. -/
def AccumulateFilter.process {α : Type} (f : AccumulateFilter α) (data : List α) :
    AccumulateFilter α × List α :=
  if 2 * f.MAX_LENGTH ≤ data.length + f.old.length then
    ({ f with old := [] }, negSlice f.MAX_LENGTH data)
  else if data.length + f.old.length < f.MAX_LENGTH then
    ({ f with old := f.old ++ data }, f.old ++ data)
  else
    let export_rows := f.MAX_LENGTH - f.old.length
    ({ f with old := data.drop (export_rows + 1) }, f.old ++ data.take export_rows)

/-- Feed a sequence of batches through the filter, keeping the state. -/
def AccumulateFilter.runBatches {α : Type} (f : AccumulateFilter α)
    (bs : List (List α)) : AccumulateFilter α :=
  bs.foldl (fun g b => (g.process b).1) f

/-! ## MovingAverageFilter / MovingMedianFilter
(src/base/pipeline/time_series_filters.py 245-323)

Both classes share the FIFOFilter per-column deque and differ only in the
statistic applied to the window (`mean` vs `median`), so the per-column
inner loop is embedded once, parameterized by the statistic.  The timestamp
column (column 0) passes through unchanged in the source and is omitted
here; `win` is the per-column deque `self._data[key]`. -/

/-- One iteration of the per-value loop (lines 273-281 / 312-320): a NaN
value emits `None` on an empty window or the statistic of the unchanged
window; a real value is appended (FIFO, capacity `L`) and the statistic of
the updated window is emitted. Returns the new window and the emitted cell. -/
def fifoStatStep (stat : List ℚ → ℚ) (L : Nat) (win : List ℚ) (v : Option ℚ) :
    List ℚ × Option ℚ :=
  match v with
  | none => (win, if win.length = 0 then none else some (stat win))
  | some x =>
      let w := dequeAppend L win x
      (w, some (stat w))

/-- The whole per-column loop: thread the window through the column's cells,
collecting the emitted cells and the final window. -/
def fifoStatRun (stat : List ℚ → ℚ) (L : Nat) (win : List ℚ) :
    List (Option ℚ) → List (Option ℚ) × List ℚ
  | [] => ([], win)
  | v :: vs =>
      let p := fifoStatStep stat L win v
      let q := fifoStatRun stat L p.1 vs
      (p.2 :: q.1, q.2)

/-- Feeding a sequence of batches one `process` call at a time: the window
persists across calls; outputs are concatenated in order. -/
def fifoStatRunBatches (stat : List ℚ → ℚ) (L : Nat) (win : List ℚ) :
    List (List (Option ℚ)) → List (Option ℚ) × List ℚ
  | [] => ([], win)
  | b :: bs =>
      let p := fifoStatRun stat L win b
      let q := fifoStatRunBatches stat L p.2 bs
      (p.1 ++ q.1, q.2)

/-- Model of `MovingAverageFilter.process` restricted to one value column. -/
def MovingAverageFilter.processColumn (L : Nat) (win : List ℚ)
    (vs : List (Option ℚ)) : List (Option ℚ) × List ℚ :=
  fifoStatRun pyMean L win vs

/-- Repeated `MovingAverageFilter.process` calls on a batch sequence. -/
def MovingAverageFilter.processBatches (L : Nat)
    (bs : List (List (Option ℚ))) : List (Option ℚ) × List ℚ :=
  fifoStatRunBatches pyMean L [] bs

/-- Model of `MovingMedianFilter.process` restricted to one value column. -/
def MovingMedianFilter.processColumn (L : Nat) (win : List ℚ)
    (vs : List (Option ℚ)) : List (Option ℚ) × List ℚ :=
  fifoStatRun pyMedian L win vs

/-- Repeated `MovingMedianFilter.process` calls on a batch sequence. -/
def MovingMedianFilter.processBatches (L : Nat)
    (bs : List (List (Option ℚ))) : List (Option ℚ) × List ℚ :=
  fifoStatRunBatches pyMedian L [] bs

/-! ## BatchStdevFilter (src/base/pipeline/time_series_filters.py 31-89)

The DataFrame is a timestamp column plus positional value columns of
nullable cells. -/

structure BSBatch where
  times : List ℚ
  cols : List (List (Option ℚ))
  deriving DecidableEq, Repr

/-- The non-null values of a column (`dropna().to_list()`). -/
def nonNullValues (col : List (Option ℚ)) : List ℚ := col.filterMap id

/-- The per-cell branch of lines 79-87.  A NaN cell fails the
`lower <= x <= upper` chained comparison (Python NaN comparisons are
false), so with `remove` it is set to `None` and otherwise it falls to the
final `else` and is set to the upper bound — faithful to the source. -/
def clampCell (remove : Bool) (lower upper : ℚ) (cell : Option ℚ) : Option ℚ :=
  match cell with
  | some x =>
      if lower ≤ x ∧ x ≤ upper then some x
      else if remove then none
      else if x < lower then some lower else some upper
  | none => if remove then none else some upper

/-- One column's pass of the row loop (lines 73-87); the bounds are
loop-invariant in the source and hoisted here. -/
def BatchStdevFilter.clampColumn (n : ℚ) (remove : Bool)
    (col : List (Option ℚ)) : List (Option ℚ) :=
  let values := nonNullValues col
  let sd := stdevQ values
  let avg := pyMean values
  col.map (clampCell remove (avg - n * sd) (avg + n * sd))

/-- The column loop of `BatchStdevFilter.process` (lines 66-89): columns are
visited in order; a column with at most 2 non-null values triggers
`return raw_data`, the untouched copy of the whole input, discarding the
work already done on earlier columns. -/
def BatchStdevFilter.go (n : ℚ) (remove : Bool) (orig : BSBatch) :
    List (List (Option ℚ)) → List (List (Option ℚ)) → BSBatch
  | [], done => { orig with cols := done }
  | c :: rest, done =>
      if (nonNullValues c).length ≤ 2 then orig
      else BatchStdevFilter.go n remove orig rest
        (done ++ [BatchStdevFilter.clampColumn n remove c])

/-- Model of `BatchStdevFilter.process` (lines 61-89). -/
def BatchStdevFilter.process (n : ℚ) (remove : Bool) (b : BSBatch) : BSBatch :=
  BatchStdevFilter.go n remove b b.cols []

/-- Value column A of the C3 counterexample batch: two non-null values. -/
def cexColA : List (Option ℚ) := [some 5, some 7, none, none]

/-- Value column B of the C3 counterexample batch: non-null values
`[0,0,0,8]` with sample mean 2 and sample standard deviation 4. -/
def cexColB : List (Option ℚ) := [some 0, some 0, some 0, some 8]

/-- The C3 counterexample batch. -/
def cexBatch : BSBatch := ⟨[0, 1, 2, 3], [cexColA, cexColB]⟩

/-! ## BatchConsumptionFilter (src/base/pipeline/time_series_filters.py 449-643)

Python dicts keyed by column name are association lists in insertion
order. -/

abbrev Dict (α : Type) := List (String × α)

/-- Dict lookup with a default (all embedded call sites access existing keys). -/
def dget {α : Type} (d : Dict α) (k : String) (default : α) : α :=
  match d.find? (fun p => p.1 == k) with
  | some p => p.2
  | none => default

/-- Dict update of an existing key. -/
def dset {α : Type} (d : Dict α) (k : String) (v : α) : Dict α :=
  d.map (fun p => if p.1 == k then (k, v) else p)

/-- The `.time()` of a datetime modelled as a rational: its fractional part. -/
def timeOfDay (t : ℚ) : ℚ := t - (⌊t⌋ : ℚ)

/-- A batch for the consumption filter: the timestamp column (name and
values) plus named nullable value columns. -/
structure TimeBatch where
  timeName : String
  times : List ℚ
  cols : List (String × List (Option ℚ))
  deriving DecidableEq, Repr

/-- The state of a `BatchConsumptionFilter`. `data = none` models
`self._data is None` before the first batch. -/
structure BCF where
  FRONT : Nat
  TAIL : Nat
  DIFFERENCE_MULTIPLE : ℚ
  START_TIME : ℚ
  END_TIME : ℚ
  useDifference : Bool
  useTime : Bool
  EXPORT_TIME_DURATION : ℚ
  MAX_LENGTH : Nat
  data : Option (Dict (List ℚ))
  dataDatetime : Dict (List ℚ)
  remain : Dict ℚ
  lowest : Dict ℚ
  lastExport : Dict (Option ℚ)
  deriving DecidableEq, Repr

/-- Model of `BatchConsumptionFilter.__init__` (lines 462-522); note
`super().__init__(tail + front)`, so the window capacity is `tail + front`. -/
def BCF.init (front tail : Nat) (useDifference useTime : Bool)
    (difference_multiple start_time end_time export_time_duration : ℚ) : BCF :=
  { FRONT := front, TAIL := tail,
    DIFFERENCE_MULTIPLE := difference_multiple,
    START_TIME := start_time, END_TIME := end_time,
    useDifference := useDifference, useTime := useTime,
    EXPORT_TIME_DURATION := export_time_duration,
    MAX_LENGTH := tail + front,
    data := none, dataDatetime := [], remain := [], lowest := [],
    lastExport := [] }

/-- Model of `__is_tail_larger_than_front` (lines 524-530):
`min(window[-TAIL:]) >= max(window[:FRONT])` once the window is full.
`min`/`max` of an empty slice raise `ValueError` (reachable when
`FRONT = 0`: the front slice `window[:0]` is empty); the tail minimum is
computed first (line 528), then the front maximum (line 529). -/
def BCF.is_tail_larger_than_front (st : BCF) (key : String) :
    Except PyErr Bool :=
  let win := dget (st.data.getD []) key []
  if win.length < st.MAX_LENGTH then .ok false
  else
    match pyMinE (negSlice st.TAIL win) with
    | .error e => .error e
    | .ok tail_min =>
        match pyMaxE (win.take st.FRONT) with
        | .error e => .error e
        | .ok front_max => .ok (decide (front_max ≤ tail_min))

/-- Model of `__is_more_than_difference` (lines 532-538):
`median(window[-TAIL:]) / median(window[:FRONT]) >= DIFFERENCE_MULTIPLE`.
`median` of an empty slice raises `StatisticsError` (reachable when
`FRONT = 0`); the tail median is computed first, then the front median.
The values flowing through the filter are pandas float64 scalars, whose
division by a zero front median yields `+inf`/`-inf`/`nan` (for a
positive/negative/zero tail median) instead of raising, so against a finite
`DIFFERENCE_MULTIPLE` the comparison is then true exactly when the tail
median is positive. -/
def BCF.is_more_than_difference (st : BCF) (key : String) :
    Except PyErr Bool :=
  let win := dget (st.data.getD []) key []
  if win.length < st.MAX_LENGTH then .ok false
  else
    match pyMedianE (negSlice st.TAIL win) with
    | .error e => .error e
    | .ok tail_median =>
        match pyMedianE (win.take st.FRONT) with
        | .error e => .error e
        | .ok front_median =>
            if front_median = 0 then .ok (decide (0 < tail_median))
            else .ok (decide (st.DIFFERENCE_MULTIPLE ≤
              tail_median / front_median))

/-- Model of `__is_in_time_range` (lines 540-546).  The guard on line 542 is
`len(self._data) < self._MAX_LENGTH`: the length of the *dict* of per-column
windows (i.e. the number of columns of the first batch), not the length of
the window `self._data[key]`; the body then compares only the first and the
last timestamp of the column's datetime window against the configured
time-of-day bounds.  (At every call from `process` the accessed datetime
deque is non-empty — the current sample was just appended — so the
`headD`/`getLastD` defaults are inert.) -/
def BCF.is_in_time_range (st : BCF) (key : String) : Bool :=
  if (st.data.getD []).length < st.MAX_LENGTH then false
  else
    let dts := dget st.dataDatetime key []
    let start_time := timeOfDay (dts.headD 0)
    let end_time := timeOfDay (dts.getLastD 0)
    decide (st.START_TIME ≤ start_time ∧ start_time ≤ end_time
      ∧ end_time ≤ st.END_TIME)

/-- Model of `__is_adding_action` (lines 548-555): `result and test()` is
Python's short-circuiting `and`, so `__is_more_than_difference` (which can
raise) is only evaluated when the step-up test already returned true; a
raised error propagates to the caller. -/
def BCF.is_adding_action (st : BCF) (key : String) : Except PyErr Bool :=
  match st.is_tail_larger_than_front key with
  | .error e => .error e
  | .ok result0 =>
      match (if st.useDifference then
               (if result0 then st.is_more_than_difference key else .ok false)
             else .ok result0) with
      | .error e => .error e
      | .ok result1 =>
          if st.useTime then .ok (result1 && st.is_in_time_range key)
          else .ok result1

/-- The output under construction: the datetime column plus one nullable
list per value column, every list sharing the length of `times`. -/
structure ResultDict where
  times : List ℚ
  cols : Dict (List (Option ℚ))
  deriving DecidableEq, Repr

/-- Model of `__add_consumed` (lines 557-577): reuse the row of an already-present
timestamp, else append a row with `consumed` in this column and `None`
elsewhere. -/
def BCF.add_consumed (st : BCF) (key : String) (rd : ResultDict)
    (current : ℚ) : ResultDict :=
  let consumed := dget st.remain key 0 - dget st.lowest key 0
  match rd.times.findIdx? (fun t => t == current) with
  | some idx =>
      { rd with
        cols := dset rd.cols key ((dget rd.cols key []).set idx (some consumed)) }
  | none =>
      { times := rd.times ++ [current],
        cols := rd.cols.map (fun p =>
          if p.1 == key then (p.1, p.2 ++ [some consumed])
          else (p.1, p.2 ++ [none])) }

/-- Model of `__should_export` (lines 579-585). -/
def BCF.should_export (st : BCF) (key : String) (current : ℚ) : Bool :=
  match dget st.lastExport key none with
  | none => true
  | some t => decide (t + st.EXPORT_TIME_DURATION ≤ current)

/-- One iteration of the row loop of `process` (lines 610-641) for column
`key` at timestamp `t`; an exception raised by the adding-action tests or
by `median` propagates out of the loop. -/
def BCF.processCell (key : String) (acc : BCF × ResultDict) (t : ℚ)
    (cell : Option ℚ) : Except PyErr (BCF × ResultDict) :=
  match cell with
  | none => .ok acc
  | some value =>
      let st := acc.1
      let rd := acc.2
      let st1 := { st with
        data := some (dset (st.data.getD []) key
          (dequeAppend st.MAX_LENGTH (dget (st.data.getD []) key []) value)),
        dataDatetime := dset st.dataDatetime key
          (dequeAppend st.MAX_LENGTH (dget st.dataDatetime key []) t),
        lowest := dset st.lowest key (min value (dget st.lowest key 0)) }
      if (dget (st1.data.getD []) key []).length < st1.MAX_LENGTH then
        .ok (st1, rd)
      else
        match st1.is_adding_action key with
        | .error e => .error e
        | .ok true =>
            let rd1 := st1.add_consumed key rd t
            match pyMedianE (negSlice st1.TAIL
                (dget (st1.data.getD []) key [])) with
            | .error e => .error e
            | .ok remain =>
                .ok ({ st1 with
                        remain := dset st1.remain key remain,
                        lowest := dset st1.lowest key remain,
                        lastExport := dset st1.lastExport key (some t) }, rd1)
        | .ok false =>
            if st1.should_export key t then
              let rd1 := st1.add_consumed key rd t
              .ok ({ st1 with
                      remain := dset st1.remain key (dget st1.lowest key 0),
                      lastExport := dset st1.lastExport key (some t) }, rd1)
            else .ok (st1, rd)

/-- The row loop of `process` for one value column; the first raised
exception aborts the loop. -/
def BCF.processColumn (acc : BCF × ResultDict) (times : List ℚ)
    (key : String) (cells : List (Option ℚ)) :
    Except PyErr (BCF × ResultDict) :=
  (times.zip cells).foldlM (fun a p => BCF.processCell key a p.1 p.2) acc

/-- Model of `data.get(key).dropna()[0]` (line 600): `dropna` keeps the original
integer row labels, and `series[0]` is a *label* lookup, so it raises
`KeyError` unless row 0 survived `dropna`, i.e. unless the cell at
position 0 is non-null. -/
def seriesDropnaFirst (col : List (Option ℚ)) : Except PyErr ℚ :=
  match col with
  | some v :: _ => .ok v
  | _ => .error .keyError

/-- The first-value pass of the initialization loop over the value columns
(line 600), propagating the first `KeyError`. -/
def firstValues : List (String × List (Option ℚ)) →
    Except PyErr (List (String × ℚ))
  | [] => .ok []
  | (k, col) :: rest =>
      match seriesDropnaFirst col with
      | .error e => .error e
      | .ok v =>
          match firstValues rest with
          | .error e => .error e
          | .ok l => .ok ((k, v) :: l)

/-- The first-batch initialization of `process` (lines 590-603):
`initialize_data` allocates an empty window per key (timestamp column
included), and every key gets its first non-dropped value as `remain` and
`lowest_record`, with `last_export_datetime = None`. -/
def BCF.initState (st : BCF) (b : TimeBatch) : Except PyErr BCF :=
  match b.times.head? with
  | none => .error .keyError
  | some t0 =>
      match firstValues b.cols with
      | .error e => .error e
      | .ok fvs =>
          .ok { st with
            data := some ((b.timeName, ([] : List ℚ)) ::
              b.cols.map (fun p => (p.1, ([] : List ℚ)))),
            dataDatetime := (b.timeName, ([] : List ℚ)) ::
              b.cols.map (fun p => (p.1, ([] : List ℚ))),
            remain := (b.timeName, t0) :: fvs,
            lowest := (b.timeName, t0) :: fvs,
            lastExport := (b.timeName, (none : Option ℚ)) ::
              b.cols.map (fun p => (p.1, (none : Option ℚ))) }

/-- Model of `DataFrame(result_dict).sort_values(by=datetime_column_name)` (line 643):
reorder the rows by timestamp (a stable sort; pandas' default sort is used
on at most one row in every concrete run of this file). -/
def ResultDict.sortByTime (rd : ResultDict) : ResultDict :=
  let idx := (List.range rd.times.length).insertionSort
    (fun i j => rd.times.getD i 0 ≤ rd.times.getD j 0)
  { times := idx.map (fun i => rd.times.getD i 0),
    cols := rd.cols.map (fun p => (p.1, idx.map (fun i => p.2.getD i none))) }

/-- Model of `BatchConsumptionFilter.process` (lines 587-643). -/
def BCF.process (st : BCF) (b : TimeBatch) : Except PyErr (ResultDict × BCF) :=
  let initd : Except PyErr BCF :=
    match st.data with
    | none => BCF.initState st b
    | some _ => .ok st
  match initd with
  | .error e => .error e
  | .ok st1 =>
      let rd0 : ResultDict :=
        { times := [],
          cols := b.cols.map (fun p => (p.1, ([] : List (Option ℚ)))) }
      match b.cols.foldlM
          (fun acc p => BCF.processColumn acc b.times p.1 p.2) (st1, rd0) with
      | .error e => .error e
      | .ok fin => .ok (fin.2.sortByTime, fin.1)

/-- The C7 filter: `front=10, tail=5, methods=["difference"],
difference_multiple=1.5` (start/end/export settings inert since the time
method is off and the run never reaches the export branch). -/
def consumptionC7Filter : BCF :=
  BCF.init 10 5 true false (3/2) (7/24) (17/24) (1/24)

/-- The C7 batch: one value column `w` with ten samples of 30 followed by
five samples of 60, at timestamps 0,1,…,14. -/
def consumptionC7Batch : TimeBatch :=
  ⟨"Timestamp", [0, 1, 2, 3, 4, 5, 6, 7, 8, 9, 10, 11, 12, 13, 14],
    [("w", [some 30, some 30, some 30, some 30, some 30, some 30, some 30,
            some 30, some 30, some 30, some 60, some 60, some 60, some 60,
            some 60])]⟩

/-- The C4 filter: `front=2, tail=1, methods=["time"]`, window in
`[7:00, 17:00]` of day (7/24 to 17/24 as day fractions). -/
def c4Filter : BCF := BCF.init 2 1 false true 2 (7/24) (17/24) (1/24)

/-- The C4 batch: one value column `w`, three samples `30, 30, 60` at
times of day 2/5, 9/20, 1/2 (all within [7/24, 17/24]). -/
def c4Batch : TimeBatch :=
  ⟨"Timestamp", [2/5, 9/20, 1/2], [("w", [some 30, some 30, some 60])]⟩

/-- The C4 run of `process` on the fresh filter. -/
def c4Run : Except PyErr (ResultDict × BCF) := BCF.process c4Filter c4Batch

/-! ## ModbusRTUBasedSensor.read_and_process (src/base/sensor/modbus.py 111-159)

The register reads of the batch loop are flattened into one list of
outcomes: a read either raises an exception (`Except.error`), or returns an
object that is an `isinstance(result, BaseException)` response, or returns a
normal response value.  Exceptions are identified by naturals; delivered
reports are collected in order (a manager is attached, so `notify_manager`
delivers).  The outer `Except` is the channel by which an uncaught exception
would propagate to the caller. -/

inductive ReadResult : Type
  | response (v : ℚ)
  | excResponse (e : Nat)
  deriving DecidableEq, Repr

/-- The report sent for an exception-like read result. -/
def excReport : Except Nat ReadResult → Option Nat
  | .ok (.excResponse e) => some e
  | _ => none

/-- The register-read loop of `read_and_process` (lines 125-154): a raised
exception is caught, reported, and the method returns `None`; an
exception-valued response is reported and skipped; a normal response is
appended to the batch. Returns the batch (or `None`) and the reports sent. -/
def ModbusRTU.read_loop : List (Except Nat ReadResult) → List ℚ → List Nat →
    Option (List ℚ) × List Nat
  | [], vals, reports => (some vals, reports)
  | r :: rs, vals, reports =>
      match r with
      | .error e => (none, reports ++ [e])
      | .ok (.excResponse e) => ModbusRTU.read_loop rs vals (reports ++ [e])
      | .ok (.response v) => ModbusRTU.read_loop rs (vals ++ [v]) reports

/-- Model of `read_and_process` (lines 111-159): the whole body catches every read
exception (`except Exception` on line 142), so the call never lets a read
error escape — the `Except` layer records what would propagate. -/
def ModbusRTU.read_and_process (reads : List (Except Nat ReadResult)) :
    Except Nat (Option (List ℚ) × List Nat) :=
  .ok (ModbusRTU.read_loop reads [] [])

/-! ## Helper lemmas -/

/-- The pending buffer always stays strictly below capacity (single step). -/
lemma AccumulateFilter.process_old_lt {α : Type} (f : AccumulateFilter α)
    (data : List α) (hn : 0 < f.MAX_LENGTH)
    (h : f.old.length < f.MAX_LENGTH) :
    ((f.process data).1).old.length < f.MAX_LENGTH := by
  unfold AccumulateFilter.process
  split
  · simpa using hn
  · split
    · simp only
      rw [List.length_append]
      omega
    · simp only [List.length_drop]
      omega

lemma AccumulateFilter.process_max {α : Type} (f : AccumulateFilter α)
    (data : List α) : ((f.process data).1).MAX_LENGTH = f.MAX_LENGTH := by
  unfold AccumulateFilter.process
  split
  · rfl
  · split <;> rfl

/-- The pending-buffer bound is preserved by any run of batches. -/
lemma AccumulateFilter.runBatches_old_lt {α : Type} (bs : List (List α)) :
    ∀ (f : AccumulateFilter α), 0 < f.MAX_LENGTH →
      f.old.length < f.MAX_LENGTH →
      (((f.runBatches bs)).old.length < (f.runBatches bs).MAX_LENGTH
        ∧ (f.runBatches bs).MAX_LENGTH = f.MAX_LENGTH) := by
  induction bs with
  | nil => intro f h1 h2; exact ⟨h2, rfl⟩
  | cons b bs ih =>
      intro f h1 h2
      have hmax := AccumulateFilter.process_max f b
      have hold := AccumulateFilter.process_old_lt f b h1 h2
      have := ih ((f.process b).1) (by rw [hmax]; exact h1) (by rw [hmax]; exact hold)
      simp only [AccumulateFilter.runBatches, List.foldl_cons] at *
      exact ⟨this.1, by rw [this.2, hmax]⟩

/-- Splitting the value stream does not change the emitted cells: running the
loop on `xs ++ ys` equals running it on `xs` and continuing on `ys` from the
resulting window. -/
lemma fifoStatRun_append (stat : List ℚ → ℚ) (L : Nat)
    (xs ys : List (Option ℚ)) : ∀ win : List ℚ,
    fifoStatRun stat L win (xs ++ ys) =
      ((fifoStatRun stat L win xs).1 ++
         (fifoStatRun stat L (fifoStatRun stat L win xs).2 ys).1,
       (fifoStatRun stat L (fifoStatRun stat L win xs).2 ys).2) := by
  induction xs with
  | nil => intro win; simp [fifoStatRun]
  | cons v vs ih => intro win; simp [fifoStatRun, ih]

/-- Feeding a batch sequence equals feeding the concatenated stream. -/
lemma fifoStatRunBatches_join (stat : List ℚ → ℚ) (L : Nat)
    (bs : List (List (Option ℚ))) : ∀ win : List ℚ,
    fifoStatRunBatches stat L win bs = fifoStatRun stat L win bs.flatten := by
  induction bs with
  | nil => intro win; simp [fifoStatRunBatches, fifoStatRun]
  | cons b bs ih =>
      intro win
      simp [fifoStatRunBatches, List.flatten, fifoStatRun_append, ih]

/-- If some pending column has at most 2 non-null values, the column loop
returns the untouched original batch. -/
lemma BatchStdevFilter.go_short (n : ℚ) (remove : Bool) (orig : BSBatch)
    (pending : List (List (Option ℚ)))
    (h : ∃ c ∈ pending, (nonNullValues c).length ≤ 2) :
    ∀ done, BatchStdevFilter.go n remove orig pending done = orig := by
  induction pending with
  | nil => simp at h
  | cons c rest ih =>
      intro done
      unfold BatchStdevFilter.go
      rcases h with ⟨c0, hc0, hlen⟩
      rcases List.mem_cons.1 hc0 with h1 | h1
      · subst h1
        simp [hlen]
      · split
        · rfl
        · exact ih ⟨c0, h1, hlen⟩ _

/-- If every pending column has at least 3 non-null values, the column loop
clamps every pending column and appends the results. -/
lemma BatchStdevFilter.go_long (n : ℚ) (remove : Bool) (orig : BSBatch)
    (pending : List (List (Option ℚ)))
    (h : ∀ c ∈ pending, ¬ (nonNullValues c).length ≤ 2) :
    ∀ done, BatchStdevFilter.go n remove orig pending done =
      { orig with cols := done ++ pending.map (BatchStdevFilter.clampColumn n remove) } := by
  induction pending with
  | nil => intro done; simp [BatchStdevFilter.go]
  | cons c rest ih =>
      intro done
      unfold BatchStdevFilter.go
      have hc := h c (List.mem_cons_self c rest)
      simp only [hc, if_false]
      rw [ih (fun c0 hc0 => h c0 (List.mem_cons_of_mem c hc0))]
      simp

/-- A run of all-successful reads followed by a raised exception: the loop
reports every exception-valued response seen so far, then the raised
exception, and yields `None` instead of a batch. -/
lemma ModbusRTU.read_loop_error (e : Nat) (rs2 : List (Except Nat ReadResult))
    (rs1 : List (Except Nat ReadResult)) (h : ∀ r ∈ rs1, ∃ v, r = .ok v) :
    ∀ vals reports,
      ModbusRTU.read_loop (rs1 ++ .error e :: rs2) vals reports
        = (none, reports ++ rs1.filterMap excReport ++ [e]) := by
  induction rs1 with
  | nil => intro vals reports; simp [ModbusRTU.read_loop]
  | cons r rs ih =>
      intro vals reports
      have hrest : ∀ r0 ∈ rs, ∃ v0, r0 = .ok v0 :=
        fun r0 h0 => h r0 (List.mem_cons_of_mem r h0)
      obtain ⟨v, hv⟩ := h r (List.mem_cons_self r rs)
      subst hv
      cases v with
      | response x =>
          have hstep : ModbusRTU.read_loop
              ((Except.ok (ReadResult.response x) :: rs) ++ Except.error e :: rs2)
              vals reports
            = ModbusRTU.read_loop (rs ++ Except.error e :: rs2) (vals ++ [x])
                reports := rfl
          rw [hstep, ih hrest]
          simp [excReport]
      | excResponse x =>
          have hstep : ModbusRTU.read_loop
              ((Except.ok (ReadResult.excResponse x) :: rs) ++ Except.error e :: rs2)
              vals reports
            = ModbusRTU.read_loop (rs ++ Except.error e :: rs2) vals
                (reports ++ [x]) := rfl
          rw [hstep, ih hrest]
          simp [excReport]

/-- The model `seriesDropnaFirst` succeeds exactly on a non-null first cell. -/
lemma seriesDropnaFirst_ok_iff (col : List (Option ℚ)) :
    (∃ v, seriesDropnaFirst col = .ok v) ↔ (∃ v, col.head? = some (some v)) := by
  cases col with
  | nil => simp [seriesDropnaFirst]
  | cons c rest =>
      cases c with
      | none => simp [seriesDropnaFirst]
      | some v => simp [seriesDropnaFirst]

/-- The model `firstValues` succeeds exactly when every column's first cell is
non-null. -/
lemma firstValues_ok_iff (cols : List (String × List (Option ℚ))) :
    (∃ l, firstValues cols = .ok l)
      ↔ (∀ p ∈ cols, ∃ v, p.2.head? = some (some v)) := by
  induction cols with
  | nil => simp [firstValues]
  | cons p rest ih =>
      constructor
      · rintro ⟨l, hl⟩ q hq
        unfold firstValues at hl
        rcases hfirst : seriesDropnaFirst p.2 with e | v
        · rw [hfirst] at hl; cases hl
        · rw [hfirst] at hl
          rcases hrest : firstValues rest with e | l2
          · rw [hrest] at hl; cases hl
          · rcases List.mem_cons.1 hq with h1 | h1
            · subst h1
              exact (seriesDropnaFirst_ok_iff q.2).1 ⟨v, hfirst⟩
            · exact (ih.1 ⟨l2, hrest⟩) q h1
      · intro h
        obtain ⟨v, hv⟩ := (seriesDropnaFirst_ok_iff p.2).2
          (h p (List.mem_cons_self p rest))
        obtain ⟨l2, hl2⟩ := ih.2 (fun q hq => h q (List.mem_cons_of_mem p hq))
        refine ⟨(p.1, v) :: l2, ?_⟩
        unfold firstValues
        rw [hv, hl2]

/-- The only error `seriesDropnaFirst` can produce is `KeyError`. -/
lemma seriesDropnaFirst_error (col : List (Option ℚ)) (e : PyErr)
    (h : seriesDropnaFirst col = .error e) : e = .keyError := by
  cases col with
  | nil =>
      unfold seriesDropnaFirst at h
      cases h
      rfl
  | cons c rest =>
      cases c with
      | none =>
          unfold seriesDropnaFirst at h
          cases h
          rfl
      | some v =>
          unfold seriesDropnaFirst at h
          cases h

/-- The only error `firstValues` can produce is `KeyError`. -/
lemma firstValues_error (cols : List (String × List (Option ℚ))) (e : PyErr)
    (h : firstValues cols = .error e) : e = .keyError := by
  induction cols with
  | nil => simp [firstValues] at h
  | cons p rest ih =>
      unfold firstValues at h
      rcases hfirst : seriesDropnaFirst p.2 with e2 | v
      · rw [hfirst] at h
        cases h
        exact seriesDropnaFirst_error p.2 e hfirst
      · rw [hfirst] at h
        rcases hrest : firstValues rest with e2 | l2
        · rw [hrest] at h; cases h; exact ih hrest
        · rw [hrest] at h; cases h

/-! ## Claims -/

/-- Claim C1, counterexample: for a `Worker` with no manager attached,
`notify_manager` is not a no-op — it raises `AttributeError` (attribute
access on `None`), contradicting "returns normally without raising". -/
theorem claim_C1_counterexample :
    Worker.init.notify_manager ⟨0, 0⟩ = .error .attributeError := rfl

/-- Claim C1, amended: calling `notify_manager` on a `Worker` with no
manager attached raises `AttributeError` (it is not a no-op); when a
manager is attached, the report is delivered to that manager's `handle`
exactly once. -/
theorem claim_C1_amended (w : Worker) (r : Report) :
    (w.manager = none → w.notify_manager r = .error .attributeError)
    ∧ (∀ mg, w.manager = some mg → w.notify_manager r = .ok [(mg, r)]) := by
  cases w with
  | mk m =>
      cases m with
      | none =>
          refine ⟨fun _ => rfl, fun mg h => ?_⟩
          cases h
      | some x =>
          refine ⟨fun h => ?_, fun mg h => ?_⟩
          · cases h
          · injection h with h2
            subst h2
            rfl

/-- Witness for C1: both branches of the amended claim at concrete workers. -/
theorem claim_C1_witness :
    Worker.init.notify_manager ⟨1, 2⟩ = .error .attributeError
    ∧ (Worker.init.set_manager (some 5)).notify_manager ⟨1, 2⟩ = .ok [(5, ⟨1, 2⟩)] :=
  ⟨(claim_C1_amended Worker.init ⟨1, 2⟩).1 rfl,
   (claim_C1_amended (Worker.init.set_manager (some 5)) ⟨1, 2⟩).2 5 rfl⟩

/-- Claim C8, counterexample: `set_manager` with an absent value does not
clear the currently attached manager — the source returns early on `None`,
so the old manager stays attached. -/
theorem claim_C8_counterexample :
    ((Worker.init.set_manager (some 1)).set_manager none).manager = some 1 := rfl

/-- Claim C8, amended: `set_manager` attaches at most one manager with
last-write-wins semantics; calling it with an absent value leaves the
currently attached manager unchanged (it does not clear it). -/
theorem claim_C8_amended (w : Worker) (m1 m2 : Nat) :
    ((w.set_manager (some m1)).set_manager (some m2)).manager = some m2
    ∧ w.set_manager none = w :=
  ⟨rfl, rfl⟩

/-- Claim C2: for every sequence of batches fed to `AccumulateFilter.process`
with chunk size `max_length` (positive), every returned batch has at most
`max_length` rows; when pending + incoming < `max_length` the returned batch
has exactly pending + incoming rows; and when pending + incoming ≥
`2·max_length` the returned batch is exactly the last `max_length` rows of
the incoming batch and the pending buffer is emptied. -/
theorem claim_C2 {α : Type} (n : Nat) (hn : 0 < n) (bs : List (List α))
    (data : List α) (f : AccumulateFilter α)
    (hf : f = (AccumulateFilter.init α n).runBatches bs) :
    (f.process data).2.length ≤ n
    ∧ (f.old.length + data.length < n →
        (f.process data).2.length = f.old.length + data.length)
    ∧ (2 * n ≤ f.old.length + data.length →
        (f.process data).2 = data.drop (data.length - n)
        ∧ (f.process data).2.length = n
        ∧ ((f.process data).1).old = []) := by
  have hinv := AccumulateFilter.runBatches_old_lt bs (AccumulateFilter.init α n)
    hn (by simpa [AccumulateFilter.init] using hn)
  rw [← hf] at hinv
  have hmax : f.MAX_LENGTH = n := by
    rw [hf]; exact ((AccumulateFilter.runBatches_old_lt bs
      (AccumulateFilter.init α n) hn
      (by simpa [AccumulateFilter.init] using hn)).2)
  have hold : f.old.length < n := by rw [← hmax]; exact hinv.1
  by_cases h1 : 2 * n ≤ data.length + f.old.length
  · have hres : f.process data = ({ f with old := [] }, negSlice n data) := by
      unfold AccumulateFilter.process
      rw [hmax, if_pos h1]
    have hlen : data.length ≥ n := by omega
    have hslice : negSlice n data = data.drop (data.length - n) := by
      unfold negSlice
      rw [if_neg (by omega)]
    refine ⟨?_, ?_, ?_⟩
    · rw [hres]
      simp only [hslice, List.length_drop]
      omega
    · intro h; omega
    · intro _
      rw [hres]
      refine ⟨hslice, ?_, rfl⟩
      simp only [hslice, List.length_drop]
      omega
  · by_cases h2 : data.length + f.old.length < n
    · have hres : f.process data
          = ({ f with old := f.old ++ data }, f.old ++ data) := by
        unfold AccumulateFilter.process
        rw [hmax, if_neg h1, if_pos h2]
      refine ⟨?_, ?_, ?_⟩
      · rw [hres]
        simp only [List.length_append]
        omega
      · intro _
        rw [hres]
        simp only [List.length_append]
      · intro h; omega
    · have hres : f.process data
          = ({ f with old := data.drop ((n - f.old.length) + 1) },
             f.old ++ data.take (n - f.old.length)) := by
        unfold AccumulateFilter.process
        rw [hmax, if_neg h1, if_neg h2]
      refine ⟨?_, ?_, ?_⟩
      · rw [hres]
        simp only [List.length_append, List.length_take]
        omega
      · intro h; omega
      · intro h; omega

/-- Witness for C2: a concrete reachable state and batch for the bound. -/
theorem claim_C2_witness :
    ((((AccumulateFilter.init ℚ 2).runBatches [[1]]).process [2, 3]).2).length ≤ 2 :=
  (claim_C2 2 (by decide) [[1]] [2, 3] _ rfl).1

/-- Claim C6: in the exact-fit-or-slight-overflow branch
(`max_length ≤ pending + incoming < 2·max_length`), `process` returns the
pending rows followed by the first `export_rows = max_length − pending`
incoming rows (exactly `max_length` rows), the new pending buffer is
`batch[export_rows+1:]`, and the incoming row at index `export_rows` is in
neither the returned batch nor the new pending buffer. -/
theorem claim_C6 {α : Type} (n : Nat) (hn : 0 < n) (bs : List (List α))
    (data : List α) (f : AccumulateFilter α)
    (hf : f = (AccumulateFilter.init α n).runBatches bs)
    (h1 : n ≤ f.old.length + data.length)
    (h2 : f.old.length + data.length < 2 * n) :
    (f.process data).2 = f.old ++ data.take (n - f.old.length)
    ∧ (f.process data).2.length = n
    ∧ ((f.process data).1).old = data.drop ((n - f.old.length) + 1)
    ∧ (f.process data).2 ++ ((f.process data).1).old
        = f.old ++ (data.take (n - f.old.length)
            ++ data.drop ((n - f.old.length) + 1)) := by
  have hinv := AccumulateFilter.runBatches_old_lt bs (AccumulateFilter.init α n)
    hn (by simpa [AccumulateFilter.init] using hn)
  rw [← hf] at hinv
  have hmax : f.MAX_LENGTH = n := by
    rw [hf]; exact ((AccumulateFilter.runBatches_old_lt bs
      (AccumulateFilter.init α n) hn
      (by simpa [AccumulateFilter.init] using hn)).2)
  have hold : f.old.length < n := by rw [← hmax]; exact hinv.1
  have hres : f.process data
      = ({ f with old := data.drop ((n - f.old.length) + 1) },
         f.old ++ data.take (n - f.old.length)) := by
    unfold AccumulateFilter.process
    rw [hmax, if_neg (by omega), if_neg (by omega)]
  refine ⟨by rw [hres], ?_, by rw [hres], ?_⟩
  · rw [hres]
    simp only [List.length_append, List.length_take]
    omega
  · rw [hres]
    simp [List.append_assoc]

/-- Witness for C6: pending `[1]`, incoming `[2, 3]`, `max_length = 2`:
output `[1, 2]`, row `3` (index `export_rows = 1`... the row after the
split) dropped, new pending empty. -/
theorem claim_C6_witness :
    ((((AccumulateFilter.init ℚ 2).runBatches [[1]]).process [2, 3]).2).length = 2 :=
  (claim_C6 2 (by decide) [[1]] [2, 3] _ rfl (by decide) (by decide)).2.1

/-- Claim C5: for a `MovingAverageFilter` or `MovingMedianFilter` of
capacity `L` and a sequence of `N ≤ L` non-null scalars, feeding the scalars
one batch at a time produces exactly the same per-row outputs as feeding
them all in a single batch. -/
theorem claim_C5 (L : Nat) (xs : List ℚ) (bss : List (List ℚ))
    (hsplit : bss.flatten = xs) (hN : xs.length ≤ L) :
    (MovingAverageFilter.processBatches L (bss.map (List.map some))).1
        = (MovingAverageFilter.processColumn L [] (xs.map some)).1
    ∧ (MovingMedianFilter.processBatches L (bss.map (List.map some))).1
        = (MovingMedianFilter.processColumn L [] (xs.map some)).1 := by
  subst hsplit
  have hflat : (bss.map (List.map some)).flatten = bss.flatten.map some := by
    simp [List.map_flatten]
  constructor
  · rw [MovingAverageFilter.processBatches, MovingAverageFilter.processColumn,
      fifoStatRunBatches_join, hflat]
  · rw [MovingMedianFilter.processBatches, MovingMedianFilter.processColumn,
      fifoStatRunBatches_join, hflat]

/-- Witness for C5: capacity 3, scalars `[1, 2]` split into two batches. -/
theorem claim_C5_witness :
    (MovingAverageFilter.processBatches 3 ([[1], [2]].map (List.map some))).1
      = (MovingAverageFilter.processColumn 3 [] ([1, 2].map some)).1 :=
  (claim_C5 3 [1, 2] [[1], [2]] rfl (by decide)).1

/-- Claim C3, counterexample: with `n = 1`, `remove = false`, on a batch
whose first value column has only 2 non-null values and whose second value
column is `[0, 0, 0, 8]` (mean 2, sample stdev 4, bounds `[-2, 6]`), the
filter returns the batch unchanged — the value 8 of the second, long
column is *not* clamped to 6, because the short first column aborts
processing of the whole batch.  So the <3-values floor does not apply per
column. -/
theorem claim_C3_counterexample :
    BatchStdevFilter.process 1 false cexBatch = cexBatch
    ∧ 3 ≤ (nonNullValues cexColB).length
    ∧ pyMean (nonNullValues cexColB) = 2
    ∧ stdevQ (nonNullValues cexColB) = 4
    ∧ BatchStdevFilter.clampColumn 1 false cexColB = [some 0, some 0, some 0, some 6]
    ∧ (BatchStdevFilter.process 1 false cexBatch).cols
        ≠ [cexColA, [some 0, some 0, some 0, some 6]] := by
  have hvals : nonNullValues cexColB = [0, 0, 0, 8] := by
    simp [nonNullValues, cexColB]
  have hmean : pyMean (nonNullValues cexColB) = 2 := by
    rw [hvals]
    norm_num [pyMean]
  have hsd : stdevQ (nonNullValues cexColB) = 4 := by
    have h1 : sampleVar (nonNullValues cexColB) = 16 := by
      rw [hvals]
      norm_num [sampleVar, pyMean]
    rw [stdevQ, h1, ratSqrt]
    rw [show ((16 : ℚ).num.toNat) = 16 by simp]
    rw [show ((16 : ℚ).den) = 1 by simp]
    norm_num
  have hproc : BatchStdevFilter.process 1 false cexBatch = cexBatch := by
    simp [BatchStdevFilter.process, BatchStdevFilter.go, nonNullValues,
      cexBatch, cexColA]
  have hclamp : BatchStdevFilter.clampColumn 1 false cexColB
      = [some 0, some 0, some 0, some 6] := by
    simp only [BatchStdevFilter.clampColumn, hmean, hsd]
    norm_num [clampCell, cexColB]
  refine ⟨hproc, by simp [nonNullValues, cexColB], hmean, hsd, hclamp, ?_⟩
  rw [hproc]
  norm_num [cexBatch, cexColB]

/-- Claim C3, amended: if any value column of the batch has fewer than 3
non-null values, `process` returns the entire original batch unmodified
(the short-column floor applies to the whole batch, discarding any work on
other columns); only when every value column has at least 3 non-null values
does each column get the clamp-or-null treatment of values outside
`[mean − n·std, mean + n·std]`. -/
theorem claim_C3_amended (n : ℚ) (remove : Bool) (b : BSBatch) :
    ((∃ c ∈ b.cols, (nonNullValues c).length < 3) →
        BatchStdevFilter.process n remove b = b)
    ∧ ((∀ c ∈ b.cols, 3 ≤ (nonNullValues c).length) →
        (BatchStdevFilter.process n remove b).times = b.times
        ∧ ∀ (i : Nat) (c : List (Option ℚ)), b.cols[i]? = some c →
            (BatchStdevFilter.process n remove b).cols[i]?
              = some (c.map (clampCell remove
                  (pyMean (nonNullValues c) - n * stdevQ (nonNullValues c))
                  (pyMean (nonNullValues c) + n * stdevQ (nonNullValues c))))) := by
  constructor
  · rintro ⟨c, hc, hlen⟩
    have h := BatchStdevFilter.go_short n remove b b.cols ⟨c, hc, by omega⟩ []
    rw [BatchStdevFilter.process, h]
  · intro h
    have hgo := BatchStdevFilter.go_long n remove b b.cols
      (fun c hc => by have := h c hc; omega) []
    rw [BatchStdevFilter.process, hgo]
    refine ⟨rfl, ?_⟩
    intro i c hc
    simp only [List.nil_append, List.getElem?_map, hc, Option.map_some]
    rfl

/-- Witness for C3: the abort branch on the counterexample batch, and the
all-columns-long branch on a batch with a single 3-value column. -/
theorem claim_C3_witness :
    BatchStdevFilter.process 1 false cexBatch = cexBatch
    ∧ (BatchStdevFilter.process 1 true ⟨[0], [[some 0, some 1, some 2]]⟩).times
        = [0] :=
  ⟨(claim_C3_amended 1 false cexBatch).1
      ⟨cexColA, by simp [cexBatch], by simp [nonNullValues, cexColA]⟩,
   ((claim_C3_amended 1 true ⟨[0], [[some 0, some 1, some 2]]⟩).2
      (by intro c hc; simp only [List.mem_singleton] at hc; subst hc
          simp [nonNullValues])).1⟩

/-- Claim C4, code bug: the `time` test of the consumption filter compares
the number of columns (`len(self._data)`, the dict of windows) against the
window capacity `front + tail`, instead of the window length
(`len(self._data[key])`, as its sibling tests do).  On a real run with
`front=2, tail=1, methods=["time"]` and one value column, the window is
full, the step-up test passes and every window timestamp lies inside
`[start_time, end_time]` — yet `__is_in_time_range` returns false (the
2-entry dict is shorter than the capacity 3), so no add-event is ever
detected, where the claim requires one. -/
theorem claim_C4_code_bug :
    c4Run.toOption.map (fun p => (p.2).is_tail_larger_than_front "w")
        = some (.ok true)
    ∧ c4Run.toOption.map (fun (p : ResultDict × BCF) =>
        decide (∀ t ∈ dget (p.2).dataDatetime "w" [],
          c4Filter.START_TIME ≤ timeOfDay t ∧ timeOfDay t ≤ c4Filter.END_TIME))
        = some true
    ∧ c4Run.toOption.map (fun p => (dget ((p.2).data.getD []) "w" []).length)
        = some c4Filter.MAX_LENGTH
    ∧ c4Filter.useTime = true
    ∧ c4Run.toOption.map (fun p => (p.2).is_in_time_range "w") = some false
    ∧ c4Run.toOption.map (fun p => (p.2).is_adding_action "w")
        = some (.ok false)
    ∧ c4Run.toOption.map (fun p =>
        decide (((p.2).data.getD []).length < (p.2).MAX_LENGTH)) = some true := by
  with_unfolding_all decide

set_option maxRecDepth 10000 in
/-- Claim C7: with `front=10, tail=5`, difference method enabled with
multiple 1.5, the sample sequence `[30 × 10, 60 × 5]` makes `process` emit
exactly one output row, at the timestamp of the 15th sample (time 14, the
last of the 15 samples), with consumption value 0. -/
theorem claim_C7 :
    (BCF.process consumptionC7Filter consumptionC7Batch).map (fun p => p.1)
        = .ok ⟨[14], [("w", [some 0])]⟩
    ∧ consumptionC7Batch.times.length = 15
    ∧ consumptionC7Batch.times[14]? = some 14 := by
  with_unfolding_all decide

/-- Claim C9, counterexample: a raised read exception does not propagate
out of `read_and_process` — the call returns normally with `None` and the
exception is converted to a Report inside the read loop. -/
theorem claim_C9_counterexample :
    ModbusRTU.read_and_process [.error 7] = .ok (none, [7])
    ∧ ModbusRTU.read_and_process [.error 7] ≠ .error 7 := by
  constructor
  · rfl
  · intro h
    simp [ModbusRTU.read_and_process] at h

/-- Claim C9, amended: an exception raised while reading a batch is caught
inside `read_and_process` (not propagated): the exception is reported to
the manager after any reports for earlier exception-valued responses, and
the call returns `None` instead of a batch. -/
theorem claim_C9_amended (rs1 rs2 : List (Except Nat ReadResult)) (e : Nat)
    (h : ∀ r ∈ rs1, ∃ v, r = .ok v) :
    ModbusRTU.read_and_process (rs1 ++ .error e :: rs2)
      = .ok (none, rs1.filterMap excReport ++ [e]) := by
  unfold ModbusRTU.read_and_process
  rw [ModbusRTU.read_loop_error e rs2 rs1 h]
  simp

/-- Witness for C9: one good read, one exception-valued response, then a
raised exception. -/
theorem claim_C9_witness :
    ModbusRTU.read_and_process
        [.ok (.response 1), .ok (.excResponse 4), .error 5]
      = .ok (none, [4, 5]) := by
  have h := claim_C9_amended [.ok (.response 1), .ok (.excResponse 4)] [] 5
    (by
      intro r hr
      rcases List.mem_cons.1 hr with h1 | h1
      · exact ⟨_, h1⟩
      · rcases List.mem_cons.1 h1 with h2 | h2
        · exact ⟨_, h2⟩
        · exact absurd h2 (List.not_mem_nil r))
  simpa [excReport] using h

/-- The model `initState` succeeds exactly when the batch is non-empty and every value
column's first cell is non-null. -/
lemma BCF.initState_ok_iff (st : BCF) (b : TimeBatch) :
    (∃ st1, BCF.initState st b = .ok st1)
      ↔ (b.times ≠ [] ∧ ∀ p ∈ b.cols, ∃ v, p.2.head? = some (some v)) := by
  obtain ⟨tn, times, cols⟩ := b
  cases times with
  | nil => simp [BCF.initState]
  | cons t ts =>
      rcases hfv : firstValues cols with e | l
      · simp only [BCF.initState, List.head?_cons, hfv]
        constructor
        · rintro ⟨st1, hst1⟩
          cases hst1
        · rintro ⟨hne, hall⟩
          obtain ⟨l, hl⟩ := (firstValues_ok_iff cols).2 hall
          rw [hfv] at hl
          cases hl
      · simp only [BCF.initState, List.head?_cons, hfv]
        constructor
        · rintro ⟨st1, hst1⟩
          exact ⟨by simp, (firstValues_ok_iff cols).1 ⟨l, hfv⟩⟩
        · intro h
          exact ⟨_, rfl⟩

/-- The only error `initState` can produce is `KeyError`. -/
lemma BCF.initState_error (st : BCF) (b : TimeBatch) (e : PyErr)
    (h : BCF.initState st b = .error e) : e = PyErr.keyError := by
  obtain ⟨tn, times, cols⟩ := b
  cases times with
  | nil =>
      simp only [BCF.initState, List.head?_nil] at h
      cases h
      rfl
  | cons t ts =>
      rcases hfv : firstValues cols with e2 | l
      · simp only [BCF.initState, List.head?_cons, hfv] at h
        cases h
        exact firstValues_error cols _ hfv
      · simp only [BCF.initState, List.head?_cons, hfv] at h
        cases h

/-- Claim C10: on the first batch a `BatchConsumptionFilter` processes
(`self._data is None`), if the batch is empty or any value column's cell at
positional row 0 is null (label 0 does not survive `dropna`), `process`
raises `KeyError` instead of returning a batch — initialization runs before
the row loop, so this holds for every filter configuration; conversely,
whenever `process` returns a batch, initialization succeeded, which
requires a non-empty batch with every value column's first row non-null. -/
theorem claim_C10 (st : BCF) (b : TimeBatch) (hfresh : st.data = none) :
    ((b.times = [] ∨ ∃ p ∈ b.cols, ¬ ∃ v, p.2.head? = some (some v)) →
        BCF.process st b = .error PyErr.keyError)
    ∧ (∀ out, BCF.process st b = .ok out →
        b.times ≠ [] ∧ ∀ p ∈ b.cols, ∃ v, p.2.head? = some (some v)) := by
  constructor
  · intro hbad
    rcases hinit : BCF.initState st b with e | st1
    · have he : e = PyErr.keyError := BCF.initState_error st b e hinit
      subst he
      simp only [BCF.process, hfresh, hinit]
    · exfalso
      obtain ⟨hne, hall⟩ := (BCF.initState_ok_iff st b).1 ⟨st1, hinit⟩
      rcases hbad with h | ⟨p, hp, hnull⟩
      · exact hne h
      · exact hnull (hall p hp)
  · intro out hout
    simp only [BCF.process, hfresh] at hout
    rcases hinit : BCF.initState st b with e | st1
    · rw [hinit] at hout
      cases hout
    · exact (BCF.initState_ok_iff st b).1 ⟨st1, hinit⟩

/-- Witness for C10: a fresh filter on a one-row batch whose single value
column's first cell is null raises `KeyError`. -/
theorem claim_C10_witness :
    BCF.process (BCF.init 1 1 true false 2 0 1 1)
        ⟨"T", [0], [("w", [none])]⟩ = .error PyErr.keyError :=
  (claim_C10 (BCF.init 1 1 true false 2 0 1 1)
      ⟨"T", [0], [("w", [none])]⟩ rfl).1
    (Or.inr ⟨("w", [none]), by simp, by simp⟩)
